import Mathlib

/-!
Verification development for the cliped-crossplatform clipboard manager.

The repository ships the React/TypeScript frontend (src/src/...): the
device-sync backend (clipboard store, device registry, sync engine) is
invoked through named commands (`get_clipboard_history_paginated`,
`accept_connection`, ...) whose implementation is not part of the sources
here.  Those components are modelled from the specification (see the
`Modelled from the spec:` doc comments); the frontend functions
(`useClipboard.ts`, `SettingsPage.tsx`) are embedded directly from the
TypeScript.
-/

set_option autoImplicit false
set_option maxRecDepth 4000

namespace Cliped

/-! ## Clipboard Store (spec §4.1) -/

/-- Content type of a clipboard entry, from the spec's data model and the
frontend type `ClipboardItem.content_type` in `src/src/types.ts`. -/
inductive ContentType
  | text
  | image
  | file
deriving DecidableEq

/-- The caller-supplied part of a clipboard entry: derived identity,
payload and content type (spec §3, `ClipboardEntry`). -/
structure EntryData where
  id : String
  content : String
  contentType : ContentType
deriving DecidableEq

/-- A resident history entry: the entry data plus the insertion sequence
number stamped by the store (insertion time). -/
structure ClipboardEntry where
  id : String
  content : String
  contentType : ContentType
  seq : Nat
deriving DecidableEq

/-- Modelled from the spec: the Clipboard Store (§4.1); its implementation
is behind the command boundary and absent from the sources.  `history` is
the LIFO history, head = most recent; `cap` is the configured cap
(default 100); `nextSeq` is the monotone insertion-time counter. -/
structure Store where
  history : List ClipboardEntry
  cap : Nat
  nextSeq : Nat
deriving DecidableEq

/-- Internal result of `append`: a fresh insertion, or the idempotent
`DuplicateEntry` no-op (spec §4.1, §7). -/
inductive AppendResult
  | appended
  | duplicateEntry
deriving DecidableEq

/-- Whether an entry with the given derived identity is resident. -/
def Store.hasId (s : Store) (i : String) : Bool :=
  s.history.any (fun e => e.id == i)

/-- Modelled from the spec: `append(entry)` (§4.1) inserts at the head of
history, reports `DuplicateEntry` as a no-op when the derived identity is
already present, and truncates from the tail until within cap. -/
def Store.append (s : Store) (d : EntryData) : Store × AppendResult :=
  if s.hasId d.id then
    (s, AppendResult.duplicateEntry)
  else
    ({ history :=
        (({ id := d.id, content := d.content, contentType := d.contentType,
            seq := s.nextSeq } : ClipboardEntry) :: s.history).take s.cap,
       cap := s.cap,
       nextSeq := s.nextSeq + 1 },
     AppendResult.appended)

/-- Modelled from the spec: `count()` (§4.1), the number of resident
entries. -/
def Store.count (s : Store) : Nat :=
  s.history.length

/-- Modelled from the spec: `page(offset, limit)` (§4.1), a LIFO-ordered
slice; an offset beyond the count yields an empty slice, never an error
(the operation is total). -/
def Store.page (s : Store) (offset limit : Nat) : List ClipboardEntry :=
  (s.history.drop offset).take limit

/-- An empty store with the given cap. -/
def Store.empty (cap : Nat) : Store :=
  { history := [], cap := cap, nextSeq := 0 }

/-- Run a sequence of appends, discarding the per-call results. -/
def Store.appendAll (s : Store) (ds : List EntryData) : Store :=
  ds.foldl (fun t d => (t.append d).1) s

/-- Store well-formedness: history is strictly ordered by insertion time
descending, derived identities are pairwise distinct, and every resident
sequence number is below the counter. -/
def Store.Wf (s : Store) : Prop :=
  s.history.Pairwise (fun a b => b.seq < a.seq) ∧
  s.history.Pairwise (fun a b => a.id ≠ b.id) ∧
  ∀ e ∈ s.history, e.seq < s.nextSeq

/-- The scenario entry stream for the cap test: 120 entries with distinct
derived identities. -/
def scenarioEntries : List EntryData :=
  (List.range 120).map (fun i => { id := toString i, content := toString i,
                                   contentType := ContentType.text })

/-! ## Device Registry and Connection Handshake (spec §3, §4.2, §4.3) -/

/-- Device status from the spec's data model (§3). -/
inductive DeviceStatus
  | discovered
  | pendingOutgoing
  | pendingIncoming
  | connected
  | disconnected
deriving DecidableEq

/-- A registered device (§3): identity, user-editable name, network
address, handshake status, and liveness timestamp. -/
structure Device where
  id : Nat
  name : String
  address : String
  status : DeviceStatus
  lastSeen : Nat
deriving DecidableEq

/-- Identity as reported by discovery broadcasts (§4.4 step 1). -/
structure DeviceInfo where
  id : Nat
  name : String
  address : String
deriving DecidableEq

/-- Typed registry/handshake failures (§7 taxonomy). -/
inductive RegistryError
  | invalidState
  | notFound
  | invalidName
deriving DecidableEq

/-- Modelled from the spec: the Device Registry (§4.2); its implementation
is behind the command boundary and absent from the sources.  One entry per
known remote device. -/
structure Registry where
  devices : List Device
deriving DecidableEq

/-- First registered device with the given id, if any. -/
def Registry.findDevice (r : Registry) (i : Nat) : Option Device :=
  r.devices.find? (fun d => d.id == i)

/-- Status of the device registered under the given id. -/
def Registry.statusOf (r : Registry) (i : Nat) : Option DeviceStatus :=
  (r.findDevice i).map (fun d => d.status)

/-- Whether a status is an established relationship (Connected or either
Pending state) that discovery must never regress (§4.2). -/
def DeviceStatus.isEstablished : DeviceStatus → Bool
  | DeviceStatus.connected => true
  | DeviceStatus.pendingIncoming => true
  | DeviceStatus.pendingOutgoing => true
  | _ => false

/-- Modelled from the spec: `upsert_discovered(device)` (§4.2): an unknown
id is inserted with status Discovered; a known device that is
Connected/Pending is left untouched (discovery never regresses an
established relationship); otherwise `last_seen` is refreshed and the
status kept. -/
def Registry.upsertDiscovered (r : Registry) (d : DeviceInfo) (now : Nat) :
    Registry :=
  match r.findDevice d.id with
  | none =>
      { devices := ({ id := d.id, name := d.name, address := d.address,
                      status := DeviceStatus.discovered,
                      lastSeen := now } : Device) :: r.devices }
  | some existing =>
      if existing.status.isEstablished then r
      else
        { devices := r.devices.map (fun e =>
            if e.id == d.id then { e with lastSeen := now } else e) }

/-- Modelled from the spec: receiving a connection request (§4.3) adds or
updates the sender as PendingIncoming. -/
def Registry.receiveRequest (r : Registry) (d : DeviceInfo) (now : Nat) :
    Registry :=
  match r.findDevice d.id with
  | none =>
      { devices := ({ id := d.id, name := d.name, address := d.address,
                      status := DeviceStatus.pendingIncoming,
                      lastSeen := now } : Device) :: r.devices }
  | some _ =>
      { devices := r.devices.map (fun e =>
          if e.id == d.id then
            { e with status := DeviceStatus.pendingIncoming, lastSeen := now }
          else e) }

/-- Modelled from the spec: `send_connection_request(device)` (§4.3),
legal only from Discovered; transitions to PendingOutgoing, otherwise
fails with `InvalidState` leaving the registry unchanged. -/
def Registry.sendConnectionRequest (r : Registry) (i : Nat) :
    Registry × Except RegistryError Unit :=
  match r.findDevice i with
  | some d =>
      if d.status == DeviceStatus.discovered then
        ({ devices := r.devices.map (fun e =>
             if e.id == i then { e with status := DeviceStatus.pendingOutgoing }
             else e) },
         Except.ok ())
      else (r, Except.error RegistryError.invalidState)
  | none => (r, Except.error RegistryError.invalidState)

/-- Modelled from the spec: `accept(device_id)` (§4.3), legal only from
PendingIncoming; transitions to Connected (channel opening and the peer
notification are outside the registry state), and fails with
`InvalidState` otherwise, leaving the registry unchanged. -/
def Registry.accept (r : Registry) (i : Nat) :
    Registry × Except RegistryError Unit :=
  match r.findDevice i with
  | some d =>
      if d.status == DeviceStatus.pendingIncoming then
        ({ devices := r.devices.map (fun e =>
             if e.id == i then { e with status := DeviceStatus.connected }
             else e) },
         Except.ok ())
      else (r, Except.error RegistryError.invalidState)
  | none => (r, Except.error RegistryError.invalidState)

/-- Modelled from the spec: `deny(device_id)` (§4.3), legal only from
PendingIncoming; the pending device is dropped from the registry. -/
def Registry.deny (r : Registry) (i : Nat) :
    Registry × Except RegistryError Unit :=
  match r.findDevice i with
  | some d =>
      if d.status == DeviceStatus.pendingIncoming then
        ({ devices := r.devices.filter (fun e => !(e.id == i)) },
         Except.ok ())
      else (r, Except.error RegistryError.invalidState)
  | none => (r, Except.error RegistryError.invalidState)

/-- Modelled from the spec: `remove(device_id)` (§4.2) drops a device
entirely, failing with `NotFound` if absent. -/
def Registry.remove (r : Registry) (i : Nat) :
    Registry × Except RegistryError Unit :=
  match r.findDevice i with
  | some _ =>
      ({ devices := r.devices.filter (fun e => !(e.id == i)) },
       Except.ok ())
  | none => (r, Except.error RegistryError.notFound)

/-- A one-device registry holding a pending incoming request, used to
exercise the handshake operations on concrete inputs. -/
def pendingRegistry : Registry :=
  { devices := [{ id := 1, name := "a", address := "p",
                  status := DeviceStatus.pendingIncoming,
                  lastSeen := 0 }] }

/-- Registry states reachable from the empty registry through the
operations of §4.2/§4.3. -/
inductive Registry.Reachable : Registry → Prop
  | empty : Registry.Reachable { devices := [] }
  | upsert {r : Registry} (d : DeviceInfo) (now : Nat) :
      Registry.Reachable r → Registry.Reachable (r.upsertDiscovered d now)
  | receive {r : Registry} (d : DeviceInfo) (now : Nat) :
      Registry.Reachable r → Registry.Reachable (r.receiveRequest d now)
  | send {r : Registry} (i : Nat) :
      Registry.Reachable r → Registry.Reachable (r.sendConnectionRequest i).1
  | accept {r : Registry} (i : Nat) :
      Registry.Reachable r → Registry.Reachable (r.accept i).1
  | deny {r : Registry} (i : Nat) :
      Registry.Reachable r → Registry.Reachable (r.deny i).1
  | remove {r : Registry} (i : Nat) :
      Registry.Reachable r → Registry.Reachable (r.remove i).1

/-! ## Sync Engine: file transfer (spec §4.5) -/

/-- File metadata advertised by the sender for a file entry (spec §3). -/
structure FileMeta where
  name : String
  size : Nat
  contentHash : Nat
deriving DecidableEq

/-- Sync-layer failure for a hash mismatch (§7 taxonomy). -/
inductive SyncError
  | integrityError
deriving DecidableEq

/-- Modelled from the spec: receiving a chunked file transfer (§4.5); the
sync engine is behind the command boundary and absent from the sources.
The receiver reconstructs the content from the chunks, computes the
content hash with the agreed hash function and verifies it against the
sender's advertised hash before calling `append`; a mismatch fails with
`IntegrityError` and the transfer is discarded (returned to the caller,
no retry), leaving the receiver's store unchanged. -/
def receiveFileTransfer (hash : List Nat → Nat) (s : Store) (d : EntryData)
    (meta : FileMeta) (chunks : List (List Nat)) :
    Store × Except SyncError AppendResult :=
  let bytes := chunks.flatten
  if hash bytes == meta.contentHash then
    let res := s.append d
    (res.1, Except.ok res.2)
  else
    (s, Except.error SyncError.integrityError)

/-! ## Frontend: SettingsPage.tsx rename flow -/

/-- Outcome of the frontend rename flow: the guard may drop the call
before anything is invoked; otherwise the `update_device_name` command is
invoked with the trimmed name and either the local device name is updated
or a generic failure alert is shown. -/
inductive RenameEffect
  | noInvoke
  | renamed (newName : String)
  | alertedFailure
deriving DecidableEq

/-- Model of JavaScript's `String.prototype.trim` (an external runtime
primitive used by the frontend): strips leading and trailing whitespace
characters. -/
def jsTrim (s : String) : String :=
  String.mk
    (((s.data.dropWhile Char.isWhitespace).reverse.dropWhile
        Char.isWhitespace).reverse)

/-- Embedded from `updateDeviceName` in
`src/src/Components/SettingsPage.tsx` lines 60-73 (identically in
`src/unnamed/part_005` lines 500-513): `if (!newDeviceName.trim())
return;` drops empty/whitespace-only input before any command is
invoked; otherwise `update_device_name` is invoked with the trimmed name
(`backend` models that command's success or failure; on failure the
catch block shows an alert). -/
def updateDeviceName (backend : String → Except RegistryError Unit)
    (newDeviceName : String) : RenameEffect :=
  if jsTrim newDeviceName == "" then RenameEffect.noInvoke
  else
    match backend (jsTrim newDeviceName) with
    | Except.ok _ => RenameEffect.renamed (jsTrim newDeviceName)
    | Except.error _ => RenameEffect.alertedFailure

/-! ## Frontend: useClipboard.ts clear/undo and pagination -/

/-- A clipboard item as exchanged with the backend, from the frontend
type `ClipboardItem` in `src/src/types.ts`. -/
structure FrontItem where
  id : String
  content : String
  timestamp : String
  device : String
  content_type : ContentType
  file_path : Option String
  file_size : Option Nat
  file_name : Option String
deriving DecidableEq

/-- Undo payload carried on the hook's notification
(`useClipboard.ts`): the pre-clear items array for a clearAll, or the
single deleted item. -/
inductive UndoData
  | clearAll (items : List FrontItem)
  | deleteItem (item : FrontItem)
deriving DecidableEq

/-- Backend commands invoked by the embedded hook flows, in invocation
order. -/
inductive BackendCall
  | clearClipboardHistory
  | addClipboardItem (item : FrontItem)
deriving DecidableEq

/-- The `useClipboard` hook state relevant to the clear/undo flow: the
`items` array (most recent first), the notification's undo payload, and
the log of backend commands invoked so far. -/
structure HookState where
  items : List FrontItem
  undoData : Option UndoData
  calls : List BackendCall
deriving DecidableEq

/-- Embedded from `clearAll`'s confirm action (`useClipboard.ts` lines
122-145): snapshots `items`, invokes `clear_clipboard_history`, empties
`items`, and stores the snapshot as the notification's undo payload. -/
def clearAllConfirm (s : HookState) : HookState :=
  { items := [],
    undoData := some (UndoData.clearAll s.items),
    calls := s.calls ++ [BackendCall.clearClipboardHistory] }

/-- Embedded from `undoLastAction` (`useClipboard.ts` lines 176-201).
For a clearAll undo the stored array is reversed in place by JavaScript's
`deletedItems.reverse()`, each item is re-submitted through
`add_clipboard_item` in that (oldest-first) iteration order, and
`setItems(deletedItems)` receives the same reversed array; the
notification (and with it the undo payload) is then cleared. -/
def undoLastAction (s : HookState) : HookState :=
  match s.undoData with
  | none => s
  | some (UndoData.clearAll deletedItems) =>
      let reversed := deletedItems.reverse
      { items := reversed,
        undoData := none,
        calls := s.calls ++ reversed.map BackendCall.addClipboardItem }
  | some (UndoData.deleteItem item) =>
      { items := item :: s.items,
        undoData := none,
        calls := s.calls ++ [BackendCall.addClipboardItem item] }

/-- Page size of the hook (`useClipboard.ts` line 34). -/
def itemsPerPage : Nat := 50

/-- `Math.ceil(totalCount / itemsPerPage)` for a natural count. -/
def totalPages (totalCount : Nat) : Nat :=
  (totalCount + itemsPerPage - 1) / itemsPerPage

/-- Pagination state of the hook: `currentPage` plus the log of offsets
passed to `get_clipboard_history_paginated`. -/
structure PagerState where
  currentPage : Nat
  offsets : List Nat
deriving DecidableEq

/-- Embedded from `loadPage` (`useClipboard.ts` lines 229-247): requests
`offset = page * itemsPerPage` and sets `currentPage := page`. -/
def loadPage (s : PagerState) (page : Nat) : PagerState :=
  { currentPage := page, offsets := s.offsets ++ [page * itemsPerPage] }

/-- Embedded from `nextPage` (`useClipboard.ts` lines 249-253), guarded
by `currentPage < Math.ceil(totalCount / itemsPerPage) - 1`.  For
`totalCount = 0` the JS guard compares against `-1` and is false, exactly
as the saturating Nat subtraction here makes it. -/
def nextPage (totalCount : Nat) (s : PagerState) : PagerState :=
  if s.currentPage < totalPages totalCount - 1 then
    loadPage s (s.currentPage + 1)
  else s

/-- Embedded from `previousPage` (`useClipboard.ts` lines 255-259),
guarded by `currentPage > 0`. -/
def previousPage (s : PagerState) : PagerState :=
  if 0 < s.currentPage then loadPage s (s.currentPage - 1) else s

/-- A user pagination action. -/
inductive PagerAction
  | next
  | prev
deriving DecidableEq

/-- One pagination step. -/
def pagerStep (totalCount : Nat) (s : PagerState) : PagerAction → PagerState
  | PagerAction.next => nextPage totalCount s
  | PagerAction.prev => previousPage s

/-- Initial hook state: page 0, with the initial history load having
requested offset 0 (`useClipboard.ts` lines 37-61). -/
def pagerInit : PagerState := { currentPage := 0, offsets := [0] }

/-- Run a sequence of pagination actions from the initial state. -/
def pagerRun (totalCount : Nat) (acts : List PagerAction) : PagerState :=
  acts.foldl (pagerStep totalCount) pagerInit

end Cliped

namespace Cliped

/-! ## Theorems: Clipboard Store -/

theorem Store.append_not_hasId {s : Store} {d : EntryData}
    (h : s.hasId d.id = false) :
    (s.append d).1.history =
      (({ id := d.id, content := d.content, contentType := d.contentType,
          seq := s.nextSeq } : ClipboardEntry) :: s.history).take s.cap ∧
    (s.append d).2 = AppendResult.appended := by
  simp [Store.append, h]

theorem Store.hasId_of_head {s : Store} {e : ClipboardEntry}
    {rest : List ClipboardEntry}
    (h : s.history = e :: rest) : s.hasId e.id = true := by
  simp [Store.hasId, h]

theorem Store.append_dup {s : Store} {d : EntryData}
    (h : s.hasId d.id = true) :
    s.append d = (s, AppendResult.duplicateEntry) := by
  simp [Store.append, h]

/-- C1: appending an entry whose derived identity already exists is the
idempotent `DuplicateEntry` no-op: with a positive cap, appending the same
logical entry twice leaves the store exactly as after appending it once,
the second call reports `DuplicateEntry`, and (from a fresh identity with
room under the cap) the count rises by exactly 1 in total. -/
theorem append_idempotent (s : Store) (d : EntryData)
    (hcap : 0 < s.cap) :
    ((s.append d).1.append d).1 = (s.append d).1 ∧
    ((s.append d).1.append d).2 = AppendResult.duplicateEntry ∧
    (s.hasId d.id = false → s.count < s.cap →
      (s.append d).1.count = s.count + 1) := by
  by_cases hid : s.hasId d.id = true
  · rw [Store.append_dup hid]
    rw [Store.append_dup hid]
    exact ⟨rfl, rfl, fun hfresh _ => absurd hid (by simp [hfresh])⟩
  · have hfresh : s.hasId d.id = false := by
      cases hval : s.hasId d.id
      · rfl
      · exact absurd hval hid
    have h1 := Store.append_not_hasId (s := s) (d := d) hfresh
    obtain ⟨k, hk⟩ : ∃ k, s.cap = k + 1 :=
      ⟨s.cap - 1, (Nat.succ_pred_eq_of_pos hcap).symm⟩
    have hhead : (s.append d).1.history =
        ({ id := d.id, content := d.content, contentType := d.contentType,
           seq := s.nextSeq } : ClipboardEntry) :: s.history.take k := by
      rw [h1.1, hk, List.take_succ_cons]
    have hdup : (s.append d).1.hasId d.id = true := by
      have := Store.hasId_of_head (s := (s.append d).1) hhead
      simpa using this
    refine ⟨?_, ?_, ?_⟩
    · rw [Store.append_dup hdup]
    · rw [Store.append_dup hdup]
    · intro _ hroom
      have htake : s.history.take k = s.history := by
        apply List.take_of_length_le
        have : s.history.length < k + 1 := by
          simpa [Store.count, hk] using hroom
        exact Nat.lt_succ_iff.mp this
      simp [Store.count, hhead, htake]

/-- Witness for `append_idempotent` at a concrete one-slot store. -/
theorem append_idempotent_witness :
    (((Store.empty 100).append
        { id := "x1", content := "hello", contentType := ContentType.text }).1.append
        { id := "x1", content := "hello", contentType := ContentType.text }).1 =
      ((Store.empty 100).append
        { id := "x1", content := "hello", contentType := ContentType.text }).1 ∧
    (((Store.empty 100).append
        { id := "x1", content := "hello", contentType := ContentType.text }).1.append
        { id := "x1", content := "hello", contentType := ContentType.text }).2 =
      AppendResult.duplicateEntry ∧
    ((Store.empty 100).append
        { id := "x1", content := "hello", contentType := ContentType.text }).1.count =
      (Store.empty 100).count + 1 :=
  have h := append_idempotent (Store.empty 100)
    { id := "x1", content := "hello", contentType := ContentType.text }
    (by decide)
  ⟨h.1, h.2.1, h.2.2 (by decide) (by decide)⟩

theorem Store.hasId_false_iff {s : Store} {i : String} :
    s.hasId i = false ↔ ∀ e ∈ s.history, e.id ≠ i := by
  simp [Store.hasId]

theorem Store.append_fresh {s : Store} {d : EntryData}
    (h : s.hasId d.id = false) :
    s.append d =
      ({ history :=
          (({ id := d.id, content := d.content, contentType := d.contentType,
              seq := s.nextSeq } : ClipboardEntry) :: s.history).take s.cap,
         cap := s.cap,
         nextSeq := s.nextSeq + 1 },
       AppendResult.appended) := by
  simp [Store.append, h]

theorem Store.Wf.append {s : Store} (hs : s.Wf) (d : EntryData) :
    (s.append d).1.Wf := by
  by_cases hid : s.hasId d.id = true
  · rw [Store.append_dup hid]
    exact hs
  · have hfresh : s.hasId d.id = false := by
      cases hval : s.hasId d.id
      · rfl
      · exact absurd hval hid
    obtain ⟨hseq, hids, hbound⟩ := hs
    have hfresh' := Store.hasId_false_iff.mp hfresh
    have hsub :
        List.Sublist
          ((({ id := d.id, content := d.content, contentType := d.contentType,
               seq := s.nextSeq } : ClipboardEntry) :: s.history).take s.cap)
          (({ id := d.id, content := d.content, contentType := d.contentType,
              seq := s.nextSeq } : ClipboardEntry) :: s.history) :=
      List.take_sublist _ _
    rw [Store.append_fresh hfresh]
    refine ⟨?_, ?_, ?_⟩
    · exact List.Pairwise.sublist hsub
        (List.pairwise_cons.mpr ⟨fun b hb => hbound b hb, hseq⟩)
    · exact List.Pairwise.sublist hsub
        (List.pairwise_cons.mpr
          ⟨fun b hb => fun hcontra => hfresh' b hb hcontra.symm, hids⟩)
    · intro e he
      have he' := hsub.subset he
      rcases List.mem_cons.mp he' with h | h
      · rw [h]
        exact Nat.lt_succ_self _
      · exact Nat.lt_succ_of_lt (hbound e h)

theorem Store.Wf.appendAll {s : Store} (hs : s.Wf) (ds : List EntryData) :
    (s.appendAll ds).Wf := by
  induction ds generalizing s with
  | nil => exact hs
  | cons d ds ih => exact ih (hs.append d)

theorem Store.empty_wf (cap : Nat) : (Store.empty cap).Wf := by
  refine ⟨List.Pairwise.nil, List.Pairwise.nil, ?_⟩
  intro e he
  simp [Store.empty] at he

/-- C2: for every sequence of appends from an empty store, `page(0, N)`
is strictly ordered by insertion time descending (LIFO, most recent
first) and contains no two entries with the same derived identity. -/
theorem page_sorted_and_deduped (cap : Nat) (ds : List EntryData) (n : Nat) :
    (((Store.empty cap).appendAll ds).page 0 n).Pairwise
      (fun a b => b.seq < a.seq) ∧
    (((Store.empty cap).appendAll ds).page 0 n).Pairwise
      (fun a b => a.id ≠ b.id) := by
  have hwf := (Store.empty_wf cap).appendAll ds
  obtain ⟨hseq, hids, _⟩ := hwf
  have hsub : (((Store.empty cap).appendAll ds).page 0 n).Sublist
      ((Store.empty cap).appendAll ds).history := by
    unfold Store.page
    rw [List.drop_zero]
    exact List.take_sublist _ _
  exact ⟨List.Pairwise.sublist hsub hseq, List.Pairwise.sublist hsub hids⟩

theorem Store.count_append_le {s : Store} (hle : s.count ≤ s.cap)
    (d : EntryData) : (s.append d).1.count ≤ (s.append d).1.cap := by
  by_cases hid : s.hasId d.id = true
  · rw [Store.append_dup hid]
    exact hle
  · have hfresh : s.hasId d.id = false := by
      cases hval : s.hasId d.id
      · rfl
      · exact absurd hval hid
    have h1 := Store.append_not_hasId (s := s) (d := d) hfresh
    have hcap : (s.append d).1.cap = s.cap := by
      simp [Store.append, hfresh]
    rw [Store.count, h1.1, hcap]
    exact List.length_take_le _ _

/-- C3: the history is bounded by the configured cap after any sequence
of appends, and in the 120-entries-with-cap-100 scenario the count
stabilizes at 100 while `page(0, 10)` returns the 10 most recently
appended entries. -/
theorem count_le_cap_and_scenario :
    (∀ (cap : Nat) (ds : List EntryData),
        ((Store.empty cap).appendAll ds).count ≤ cap) ∧
    ((Store.empty 100).appendAll scenarioEntries).count = 100 ∧
    (((Store.empty 100).appendAll scenarioEntries).page 0 10).map
        (fun e => e.id) =
      ["119", "118", "117", "116", "115", "114", "113", "112", "111",
       "110"] := by
  refine ⟨?_, ?_, ?_⟩
  · intro cap ds
    have hinv : ∀ (t : Store), t.count ≤ t.cap →
        (t.appendAll ds).count ≤ (t.appendAll ds).cap ∧
        (t.appendAll ds).cap = t.cap := by
      induction ds with
      | nil => exact fun t ht => ⟨ht, rfl⟩
      | cons d ds ih =>
        intro t ht
        have hstep := Store.count_append_le ht d
        have hcap : (t.append d).1.cap = t.cap := by
          by_cases hid : t.hasId d.id = true
          · rw [Store.append_dup hid]
          · have hfresh : t.hasId d.id = false := by
              cases hval : t.hasId d.id
              · rfl
              · exact absurd hval hid
            simp [Store.append, hfresh]
        have := ih (t.append d).1 hstep
        exact ⟨this.1, this.2.trans hcap⟩
    have h0 : (Store.empty cap).count ≤ (Store.empty cap).cap := by
      simp [Store.empty, Store.count]
    have := hinv (Store.empty cap) h0
    calc ((Store.empty cap).appendAll ds).count
        ≤ ((Store.empty cap).appendAll ds).cap := this.1
      _ = cap := this.2
  · decide
  · decide

/-- C7: paging at or beyond the count returns the empty slice for every
limit; the operation is total, so no error is possible. -/
theorem page_beyond_count (s : Store) (offset limit : Nat)
    (h : s.count ≤ offset) : s.page offset limit = [] := by
  have hdrop : s.history.drop offset = [] :=
    List.drop_eq_nil_of_le (by simpa [Store.count] using h)
  simp [Store.page, hdrop]

/-- Witness for `page_beyond_count` on a store holding one entry. -/
theorem page_beyond_count_witness :
    ((Store.empty 100).append
        { id := "x1", content := "hello", contentType := ContentType.text }).1.page 5 10 = [] :=
  page_beyond_count _ 5 10 (by decide)

/-! ## Theorems: Device Registry -/

theorem Registry.find?_map_id_preserving (l : List Device) (i : Nat)
    (f : Device → Device) (hid : ∀ e, (f e).id = e.id) :
    (l.map f).find? (fun d => d.id == i) =
      (l.find? (fun d => d.id == i)).map f := by
  induction l with
  | nil => rfl
  | cons a l ih =>
    cases hp : (a.id == i) <;>
      simp [List.find?, hid, hp, ih]

theorem Registry.map_id_preserving (l : List Device)
    (f : Device → Device) (hid : ∀ e, (f e).id = e.id) :
    (l.map f).map (fun d => d.id) = l.map (fun d => d.id) := by
  induction l with
  | nil => rfl
  | cons a l ih => simp [hid, ih]

theorem Registry.setStatus_id (i : Nat) (st : DeviceStatus) :
    ∀ e : Device,
      ((fun e => if e.id == i then { e with status := st } else e) e).id =
        e.id := by
  intro e
  by_cases h : (e.id == i) = true <;> simp [h]

theorem Registry.refresh_id (i : Nat) (now : Nat) :
    ∀ e : Device,
      ((fun e => if e.id == i then { e with lastSeen := now } else e) e).id =
        e.id := by
  intro e
  by_cases h : (e.id == i) = true <;> simp [h]

/-- C4: `accept(device_id)` on a device that is not PendingIncoming (or is
unknown) fails with `InvalidState` leaving the registry unchanged; from
PendingIncoming it succeeds and the device becomes Connected. -/
theorem accept_invalid_state (r : Registry) (i : Nat) :
    (r.statusOf i ≠ some DeviceStatus.pendingIncoming →
      (r.accept i).2 = Except.error RegistryError.invalidState ∧
      (r.accept i).1 = r) ∧
    (r.statusOf i = some DeviceStatus.pendingIncoming →
      (r.accept i).2 = Except.ok () ∧
      (r.accept i).1.statusOf i = some DeviceStatus.connected) := by
  cases hfind : r.findDevice i with
  | none =>
      constructor
      · intro _
        constructor <;> simp [Registry.accept, hfind]
      · intro hst
        rw [Registry.statusOf, hfind] at hst
        exact absurd hst (by simp)
  | some d =>
      by_cases hpend : d.status = DeviceStatus.pendingIncoming
      · constructor
        · intro hne
          exact absurd (by simp [Registry.statusOf, hfind, hpend]) hne
        · intro _
          constructor
          · simp [Registry.accept, hfind, hpend]
          · have hmap := Registry.find?_map_id_preserving r.devices i
              (fun e => if e.id == i then
                 { e with status := DeviceStatus.connected } else e)
              (Registry.setStatus_id i DeviceStatus.connected)
            have hda : (d.id == i) = true :=
              List.find?_some (p := fun (e : Device) => e.id == i)
                (show r.devices.find? (fun e => e.id == i) = some d from hfind)
            have hdi : d.id = i := by simpa using hda
            have haccept : (r.accept i).1 =
                { devices := r.devices.map (fun e =>
                    if e.id == i then
                      { e with status := DeviceStatus.connected } else e) } := by
              simp [Registry.accept, hfind, hpend]
            rw [haccept, Registry.statusOf, Registry.findDevice]
            show (((r.devices.map (fun e =>
                if e.id == i then
                  { e with status := DeviceStatus.connected }
                else e)).find? (fun d => d.id == i)).map
              (fun d => d.status)) = some DeviceStatus.connected
            rw [hmap,
              show r.devices.find? (fun d => d.id == i) = some d from hfind]
            simp [hdi]
      · constructor
        · intro _
          constructor <;> simp [Registry.accept, hfind, hpend]
        · intro hst
          rw [Registry.statusOf, hfind] at hst
          exact absurd (Option.some_injective _ hst) hpend

/-- Witness for `accept_invalid_state`: accepting an unknown id on a
one-device registry fails with `InvalidState` and changes nothing. -/
theorem accept_invalid_state_witness :
    (pendingRegistry.accept 2).2 =
      Except.error RegistryError.invalidState ∧
    (pendingRegistry.accept 2).1 = pendingRegistry :=
  (accept_invalid_state pendingRegistry 2).1 (by decide)

theorem Registry.length_filter_le_one_of_nodup_map :
    ∀ (l : List Device), ((l.map (fun d => d.id)).Nodup) →
      ∀ i : Nat, (l.filter (fun d => d.id == i)).length ≤ 1 := by
  intro l
  induction l with
  | nil =>
      intro _ i
      simp
  | cons a l ih =>
      intro h i
      rw [List.map_cons, List.nodup_cons] at h
      obtain ⟨hna, hrest⟩ := h
      by_cases hai : (a.id == i) = true
      · have hai' : a.id = i := by simpa using hai
        have hnil : l.filter (fun d => d.id == i) = [] := by
          rw [List.filter_eq_nil_iff]
          intro e he hei
          apply hna
          have hei' : e.id = i := by simpa using hei
          rw [List.mem_map]
          exact ⟨e, he, by rw [hei', hai']⟩
        simp [List.filter_cons, hai, hnil]
      · simp only [List.filter_cons, hai]
        simpa using ih hrest i

theorem Registry.ids_nodup_insert {r : Registry} {j : Nat}
    (hfind : r.findDevice j = none)
    (h : (r.devices.map (fun d => d.id)).Nodup)
    (dev : Device) (hdev : dev.id = j) :
    ((dev :: r.devices).map (fun d => d.id)).Nodup := by
  rw [List.map_cons, List.nodup_cons]
  refine ⟨?_, h⟩
  intro hmem
  obtain ⟨e, he, heid⟩ := List.mem_map.mp hmem
  have := List.find?_eq_none.mp
    (show r.devices.find? (fun e => e.id == j) = none from hfind) e he
  apply this
  simp [heid, hdev]

theorem Registry.ids_nodup_map_preserving {r : Registry}
    (h : (r.devices.map (fun d => d.id)).Nodup)
    (f : Device → Device) (hid : ∀ e, (f e).id = e.id) :
    ((r.devices.map f).map (fun d => d.id)).Nodup := by
  rw [Registry.map_id_preserving r.devices f hid]
  exact h

theorem Registry.ids_nodup_filter {r : Registry}
    (h : (r.devices.map (fun d => d.id)).Nodup)
    (q : Device → Bool) :
    (((r.devices.filter q)).map (fun d => d.id)).Nodup :=
  List.Nodup.sublist ((List.filter_sublist _).map _) h

theorem Registry.reachable_ids_nodup {r : Registry} (h : r.Reachable) :
    (r.devices.map (fun d => d.id)).Nodup := by
  induction h with
  | empty => simp
  | upsert d now _ ih =>
      rename_i r' ha
      cases hfind : r'.findDevice d.id with
      | none =>
          simp only [Registry.upsertDiscovered, hfind]
          exact Registry.ids_nodup_insert hfind ih _ rfl
      | some existing =>
          by_cases hest : existing.status.isEstablished = true
          · simp only [Registry.upsertDiscovered, hfind]
            rw [if_pos hest]
            exact ih
          · simp only [Registry.upsertDiscovered, hfind]
            rw [if_neg hest]
            exact Registry.ids_nodup_map_preserving ih _
              (Registry.refresh_id d.id now)
  | receive d now _ ih =>
      rename_i r' ha
      cases hfind : r'.findDevice d.id with
      | none =>
          simp only [Registry.receiveRequest, hfind]
          exact Registry.ids_nodup_insert hfind ih _ rfl
      | some existing =>
          simp only [Registry.receiveRequest, hfind]
          refine Registry.ids_nodup_map_preserving ih _ ?_
          intro e
          by_cases hp : (e.id == d.id) = true <;> simp [hp]
  | send i _ ih =>
      rename_i r' ha
      cases hfind : r'.findDevice i with
      | none =>
          simp only [Registry.sendConnectionRequest, hfind]
          exact ih
      | some existing =>
          by_cases hdisc : (existing.status == DeviceStatus.discovered) = true
          · simp only [Registry.sendConnectionRequest, hfind]
            rw [if_pos hdisc]
            exact Registry.ids_nodup_map_preserving ih _
              (Registry.setStatus_id i DeviceStatus.pendingOutgoing)
          · simp only [Registry.sendConnectionRequest, hfind]
            rw [if_neg hdisc]
            exact ih
  | accept i _ ih =>
      rename_i r' ha
      cases hfind : r'.findDevice i with
      | none =>
          simp only [Registry.accept, hfind]
          exact ih
      | some existing =>
          by_cases hpend : (existing.status == DeviceStatus.pendingIncoming) = true
          · simp only [Registry.accept, hfind]
            rw [if_pos hpend]
            exact Registry.ids_nodup_map_preserving ih _
              (Registry.setStatus_id i DeviceStatus.connected)
          · simp only [Registry.accept, hfind]
            rw [if_neg hpend]
            exact ih
  | deny i _ ih =>
      rename_i r' ha
      cases hfind : r'.findDevice i with
      | none =>
          simp only [Registry.deny, hfind]
          exact ih
      | some existing =>
          by_cases hpend : (existing.status == DeviceStatus.pendingIncoming) = true
          · simp only [Registry.deny, hfind]
            rw [if_pos hpend]
            exact Registry.ids_nodup_filter ih _
          · simp only [Registry.deny, hfind]
            rw [if_neg hpend]
            exact ih
  | remove i _ ih =>
      rename_i r' ha
      cases hfind : r'.findDevice i with
      | none =>
          simp only [Registry.remove, hfind]
          exact ih
      | some existing =>
          simp only [Registry.remove, hfind]
          exact Registry.ids_nodup_filter ih _

/-- C5: in every reachable registry state a device id appears at most
once (hence in at most one status class), and `upsert_discovered` never
changes the status of a device that is already Connected or Pending. -/
theorem registry_status_unique_and_no_regress (r : Registry)
    (h : r.Reachable) :
    (∀ i : Nat, (r.devices.filter (fun d => d.id == i)).length ≤ 1) ∧
    (∀ (d : DeviceInfo) (now i : Nat) (st : DeviceStatus),
        r.statusOf i = some st → st.isEstablished = true →
        (r.upsertDiscovered d now).statusOf i = some st) := by
  constructor
  · intro i
    exact Registry.length_filter_le_one_of_nodup_map _
      (Registry.reachable_ids_nodup h) i
  · intro d now i st hst _
    cases hfind : r.findDevice d.id with
    | none =>
        by_cases hdi : d.id = i
        · subst hdi
          rw [Registry.statusOf, hfind] at hst
          simp at hst
        · simp only [Registry.upsertDiscovered, hfind]
          rw [Registry.statusOf, Registry.findDevice] at hst ⊢
          rw [List.find?_cons_of_neg]
          · exact hst
          · simp [hdi]
    | some existing =>
        by_cases hest : existing.status.isEstablished = true
        · simp only [Registry.upsertDiscovered, hfind, hest, if_pos]
          exact hst
        · simp only [Registry.upsertDiscovered, hfind, hest, if_neg,
            Bool.not_eq_true]
          rw [Registry.statusOf, Registry.findDevice] at hst ⊢
          rw [Registry.find?_map_id_preserving r.devices i _
            (Registry.refresh_id d.id now)]
          cases hfi : r.devices.find? (fun e => e.id == i) with
          | none =>
              rw [hfi] at hst
              exact absurd hst (by simp)
          | some dev =>
              rw [hfi] at hst
              have hdev : dev.status = st := by simpa using hst
              by_cases hp : dev.id = d.id <;>
                simp [hp, hdev]

/-- Witness for `registry_status_unique_and_no_regress` on the registry
reached by receiving one connection request. -/
theorem registry_status_unique_witness :
    (((({ devices := [] } : Registry).receiveRequest
        { id := 7, name := "b", address := "x" } 3).devices.filter
          (fun d => d.id == 7)).length ≤ 1) ∧
    ((({ devices := [] } : Registry).receiveRequest
        { id := 7, name := "b", address := "x" } 3).upsertDiscovered
          { id := 7, name := "c", address := "y" } 9).statusOf 7 =
      some DeviceStatus.pendingIncoming :=
  have h := registry_status_unique_and_no_regress
    ((({ devices := [] } : Registry).receiveRequest
        { id := 7, name := "b", address := "x" } 3))
    (Registry.Reachable.receive { id := 7, name := "b", address := "x" } 3
      Registry.Reachable.empty)
  ⟨h.1 7,
   h.2 { id := 7, name := "c", address := "y" } 9 7
     DeviceStatus.pendingIncoming (by decide) (by decide)⟩

/-! ## Theorems: Sync Engine file transfer -/

/-- C6: when the receiver's reconstructed-content hash does not match the
sender's advertised hash, the transfer fails with `IntegrityError`, the
receiver's store is unchanged (the transfer is discarded, with no retry
in the operation itself), and the file entry is never appended. -/
theorem file_transfer_integrity (hash : List Nat → Nat) (s : Store)
    (d : EntryData) (meta : FileMeta) (chunks : List (List Nat))
    (hmismatch : hash chunks.flatten ≠ meta.contentHash) :
    (receiveFileTransfer hash s d meta chunks).1 = s ∧
    (receiveFileTransfer hash s d meta chunks).2 =
      Except.error SyncError.integrityError ∧
    (s.hasId d.id = false →
      (receiveFileTransfer hash s d meta chunks).1.hasId d.id = false) := by
  have hb : (hash chunks.flatten == meta.contentHash) = false := by
    simpa using hmismatch
  refine ⟨?_, ?_, ?_⟩
  · simp [receiveFileTransfer, hb]
  · simp [receiveFileTransfer, hb]
  · intro hfresh
    simpa [receiveFileTransfer, hb] using hfresh

/-- Witness for `file_transfer_integrity`: a three-byte transfer whose
sum-hash disagrees with the advertised hash. -/
theorem file_transfer_integrity_witness :
    (receiveFileTransfer (fun l => l.sum) (Store.empty 100)
        { id := "f1", content := "payload", contentType := ContentType.file }
        { name := "f.bin", size := 3, contentHash := 7 } [[1, 2], [3]]).1 =
      Store.empty 100 ∧
    (receiveFileTransfer (fun l => l.sum) (Store.empty 100)
        { id := "f1", content := "payload", contentType := ContentType.file }
        { name := "f.bin", size := 3, contentHash := 7 } [[1, 2], [3]]).2 =
      Except.error SyncError.integrityError ∧
    (receiveFileTransfer (fun l => l.sum) (Store.empty 100)
        { id := "f1", content := "payload", contentType := ContentType.file }
        { name := "f.bin", size := 3, contentHash := 7 } [[1, 2], [3]]).1.hasId
        "f1" = false :=
  have h := file_transfer_integrity (fun l => l.sum) (Store.empty 100)
    { id := "f1", content := "payload", contentType := ContentType.file }
    { name := "f.bin", size := 3, contentHash := 7 } [[1, 2], [3]]
    (by decide)
  ⟨h.1, h.2.1, h.2.2 (by decide)⟩

/-! ## Theorems: SettingsPage.tsx rename flow -/

/-- C8 counterexample: on the whitespace-only input `"   "` the rename
flow returns without invoking anything (`noInvoke`), which is not the
claimed surfaced failure (`alertedFailure`), even against a backend that
would report `InvalidName`. -/
theorem rename_counterexample :
    updateDeviceName (fun _ => Except.error RegistryError.invalidName)
      "   " = RenameEffect.noInvoke ∧
    RenameEffect.noInvoke ≠ RenameEffect.alertedFailure := by
  constructor
  · decide
  · decide

/-- C8 (amended): renaming with an input whose trimmed form is empty is
silently dropped by the frontend guard — the `update_device_name` command
is never invoked and no failure is surfaced — while any input with a
nonempty trimmed form does proceed past the guard. -/
theorem rename_empty_silently_dropped
    (backend : String → Except RegistryError Unit) (s : String) :
    (jsTrim s = "" → updateDeviceName backend s = RenameEffect.noInvoke) ∧
    (jsTrim s ≠ "" → updateDeviceName backend s ≠ RenameEffect.noInvoke) := by
  constructor
  · intro h
    simp [updateDeviceName, h]
  · intro h
    have hb : (jsTrim s == "") = false := by simpa using h
    cases hcall : backend (jsTrim s) <;>
      simp [updateDeviceName, hb, hcall]

/-- Witness for `rename_empty_silently_dropped` on a whitespace-only and
a nonempty input. -/
theorem rename_empty_silently_dropped_witness :
    updateDeviceName (fun _ => Except.ok ()) "  " = RenameEffect.noInvoke ∧
    updateDeviceName (fun _ => Except.ok ()) " pc " ≠
      RenameEffect.noInvoke :=
  ⟨(rename_empty_silently_dropped (fun _ => Except.ok ()) "  ").1
      (by decide),
   (rename_empty_silently_dropped (fun _ => Except.ok ()) " pc ").2
      (by decide)⟩

/-! ## Theorems: useClipboard.ts clear/undo -/

/-- C9: clearing all items and then undoing re-submits each cleared item
through `add_clipboard_item` in oldest-first order (the in-place
`reverse()` of the most-recent-first snapshot) and leaves the hook's
`items` equal to the reversal of the pre-clear array. -/
theorem clearAll_undo_restores_reversed (s : HookState)
    (_h : s.items ≠ []) :
    (undoLastAction (clearAllConfirm s)).items = s.items.reverse ∧
    (undoLastAction (clearAllConfirm s)).calls =
      s.calls ++ [BackendCall.clearClipboardHistory] ++
        s.items.reverse.map BackendCall.addClipboardItem := by
  constructor
  · simp [clearAllConfirm, undoLastAction]
  · simp [clearAllConfirm, undoLastAction]

/-- Witness for `clearAll_undo_restores_reversed` on a two-item state. -/
theorem clearAll_undo_restores_reversed_witness :
    (undoLastAction (clearAllConfirm
        { items := [{ id := "b", content := "newer", timestamp := "2",
                      device := "d", content_type := ContentType.text,
                      file_path := none, file_size := none,
                      file_name := none },
                    { id := "a", content := "older", timestamp := "1",
                      device := "d", content_type := ContentType.text,
                      file_path := none, file_size := none,
                      file_name := none }],
          undoData := none, calls := [] })).items =
      [{ id := "b", content := "newer", timestamp := "2",
         device := "d", content_type := ContentType.text,
         file_path := none, file_size := none, file_name := none },
       { id := "a", content := "older", timestamp := "1",
         device := "d", content_type := ContentType.text,
         file_path := none, file_size := none,
         file_name := none }].reverse ∧
    (undoLastAction (clearAllConfirm
        { items := [{ id := "b", content := "newer", timestamp := "2",
                      device := "d", content_type := ContentType.text,
                      file_path := none, file_size := none,
                      file_name := none },
                    { id := "a", content := "older", timestamp := "1",
                      device := "d", content_type := ContentType.text,
                      file_path := none, file_size := none,
                      file_name := none }],
          undoData := none, calls := [] })).calls =
      [] ++ [BackendCall.clearClipboardHistory] ++
        ([{ id := "b", content := "newer", timestamp := "2",
            device := "d", content_type := ContentType.text,
            file_path := none, file_size := none, file_name := none },
          { id := "a", content := "older", timestamp := "1",
            device := "d", content_type := ContentType.text,
            file_path := none, file_size := none,
            file_name := none }].reverse.map
          BackendCall.addClipboardItem) :=
  clearAll_undo_restores_reversed
    { items := [{ id := "b", content := "newer", timestamp := "2",
                  device := "d", content_type := ContentType.text,
                  file_path := none, file_size := none,
                  file_name := none },
                { id := "a", content := "older", timestamp := "1",
                  device := "d", content_type := ContentType.text,
                  file_path := none, file_size := none,
                  file_name := none }],
      undoData := none, calls := [] }
    (by decide)

/-! ## Theorems: useClipboard.ts pagination -/

theorem pagerStep_preserves (totalCount : Nat) (s : PagerState)
    (a : PagerAction)
    (h1 : s.currentPage ≤ totalPages totalCount - 1)
    (h2 : s.offsets.all (fun off => off % itemsPerPage == 0) = true) :
    (pagerStep totalCount s a).currentPage ≤ totalPages totalCount - 1 ∧
    ((pagerStep totalCount s a).offsets.all
      (fun off => off % itemsPerPage == 0)) = true := by
  cases a with
  | next =>
      by_cases hg : s.currentPage < totalPages totalCount - 1
      · constructor
        · simp only [pagerStep, nextPage, if_pos hg, loadPage]
          exact hg
        · simp [pagerStep, nextPage, hg, loadPage, List.all_append, h2,
            Nat.mul_mod_left]
      · constructor
        · simpa [pagerStep, nextPage, hg] using h1
        · simpa [pagerStep, nextPage, hg] using h2
  | prev =>
      by_cases hg : 0 < s.currentPage
      · constructor
        · simp only [pagerStep, previousPage, hg, if_pos, loadPage]
          exact Nat.le_trans (Nat.sub_le _ _) h1
        · simp [pagerStep, previousPage, hg, loadPage, List.all_append, h2,
            Nat.mul_mod_left]
      · constructor
        · simpa [pagerStep, previousPage, hg] using h1
        · simpa [pagerStep, previousPage, hg] using h2

theorem pagerFold_preserves (totalCount : Nat) (acts : List PagerAction) :
    ∀ s : PagerState,
      s.currentPage ≤ totalPages totalCount - 1 →
      s.offsets.all (fun off => off % itemsPerPage == 0) = true →
      ((acts.foldl (pagerStep totalCount) s).currentPage ≤
        totalPages totalCount - 1 ∧
       ((acts.foldl (pagerStep totalCount) s).offsets.all
         (fun off => off % itemsPerPage == 0)) = true) := by
  induction acts with
  | nil => exact fun s h1 h2 => ⟨h1, h2⟩
  | cons a acts ih =>
      intro s h1 h2
      have hstep := pagerStep_preserves totalCount s a h1 h2
      exact ih (pagerStep totalCount s a) hstep.1 hstep.2

/-- C10: for every total count and every sequence of nextPage/previousPage
calls the hook's `currentPage` stays within
`0 ≤ currentPage ≤ max(0, ceil(totalCount / 50) - 1)` (the upper bound is
the saturating Nat subtraction `totalPages - 1`), so every offset passed
to `get_clipboard_history_paginated` is a (non-negative) multiple of 50. -/
theorem pager_in_bounds (totalCount : Nat) (acts : List PagerAction) :
    (pagerRun totalCount acts).currentPage ≤ totalPages totalCount - 1 ∧
    ((pagerRun totalCount acts).offsets.all
      (fun off => off % itemsPerPage == 0)) = true := by
  have h0 : pagerInit.currentPage ≤ totalPages totalCount - 1 :=
    Nat.zero_le _
  have h1 : pagerInit.offsets.all
      (fun off => off % itemsPerPage == 0) = true := by decide
  exact pagerFold_preserves totalCount acts pagerInit h0 h1

end Cliped
